import Mathlib

/-!
Verification of the recipe-management API (Django project `app`).

The data model (`User`, `Tag`, `Ingredient`, `Recipe`) is embedded as plain
structures over an in-memory store.  Pure operations mirror, function by
function, the code in `app/recipe/views.py`, `app/recipe/serializers.py` and
`app/core/management/commands/wait_for_db.py`.  Parts of the repository that
are exercised by the test-suite but whose defining module is not present in
the source tree (the `core/models.py` user manager and the nested
tag/ingredient upsert logic of the recipe serializer, the ingredient viewset,
and the tag/ingredient serializers) are modelled from the specification and
are marked as such in their doc comments.
-/

/-- A tag row: `core.models.Tag` has an id, an owning user and a name. -/
structure Tag where
  id : Nat
  user : Nat
  name : String
deriving DecidableEq, Repr

/-- An ingredient row: `core.models.Ingredient` has the same shape as `Tag`. -/
structure Ingredient where
  id : Nat
  user : Nat
  name : String
deriving DecidableEq, Repr

/-- A recipe row: `core.models.Recipe` with its many-to-many association
lists (tag ids / ingredient ids).  `price` (a fixed-point decimal) is
modelled as an integer number of currency minor units. -/
structure Recipe where
  id : Nat
  user : Nat
  title : String
  time_minutes : Nat
  price : Int
  description : String
  link : String
  tags : List Nat
  ingredients : List Nat
deriving DecidableEq, Repr

/-- The relational store backing the API: one table per entity plus the
next auto-increment primary key for each table. -/
structure Store where
  recipes : List Recipe
  tags : List Tag
  ingredients : List Ingredient
  nextRecipeId : Nat
  nextTagId : Nat
  nextIngredientId : Nat
deriving DecidableEq, Repr

/-- Field list `RecipeSerializer.Meta.fields` from `recipe/serializers.py`. -/
def recipeSerializerFields : List String :=
  ["id", "title", "time_minutes", "price", "link"]

/-- Field list `RecipeSerializer.Meta.read_only_fields` from `recipe/serializers.py`. -/
def recipeSerializerReadOnlyFields : List String := ["id"]

/-- Field list `RecipeDetailSerializer.Meta.fields` from `recipe/serializers.py`:
the list-serializer fields plus `description`. -/
def recipeDetailSerializerFields : List String :=
  recipeSerializerFields ++ ["description"]

/-- The writable fields of the detail serializer: declared fields minus the
read-only ones.  `user` is not declared at all, so it is never writable. -/
def writableDetailFields : List String :=
  recipeDetailSerializerFields.filter (fun f => f ∉ recipeSerializerReadOnlyFields)

/-- The viewset actions of a Django REST framework `ModelViewSet`. -/
inductive ViewAction where
  | list | retrieve | create | update | patch | destroy
deriving DecidableEq, Repr

/-- Method `RecipeViewSet.get_serializer_class` from `recipe/views.py`: the list
action uses `RecipeSerializer`, every other action the detail serializer.
Serializer classes are represented by their field lists. -/
def get_serializer_class (a : ViewAction) : List String :=
  if a = ViewAction.list then recipeSerializerFields else recipeDetailSerializerFields

/-- Descending-id order used by `RecipeViewSet.get_queryset`
(`order_by("-id")`). -/
def recipeDescId (a b : Recipe) : Prop := b.id ≤ a.id

instance : DecidableRel recipeDescId := fun a b => Nat.decLe b.id a.id

instance : IsTotal Recipe recipeDescId := ⟨fun a b => Nat.le_total b.id a.id⟩

instance : IsTrans Recipe recipeDescId := ⟨fun _ _ _ h1 h2 => le_trans h2 h1⟩

/-- Descending-name order used by `TagViewSet.get_queryset`
(`order_by("-name")`). -/
def tagDescName (a b : Tag) : Prop := b.name ≤ a.name

instance : DecidableRel tagDescName := fun a b => inferInstanceAs (Decidable (b.name ≤ a.name))

instance : IsTotal Tag tagDescName := ⟨fun a b => le_total b.name a.name⟩

instance : IsTrans Tag tagDescName := ⟨fun _ _ _ h1 h2 => le_trans h2 h1⟩

/-- Descending-name order of the ingredient list endpoint. -/
def ingredientDescName (a b : Ingredient) : Prop := b.name ≤ a.name

instance : DecidableRel ingredientDescName := fun a b => inferInstanceAs (Decidable (b.name ≤ a.name))

instance : IsTotal Ingredient ingredientDescName := ⟨fun a b => le_total b.name a.name⟩

instance : IsTrans Ingredient ingredientDescName := ⟨fun _ _ _ h1 h2 => le_trans h2 h1⟩

/-- Method `RecipeViewSet.get_queryset` from `recipe/views.py`:
`self.queryset.filter(user=self.request.user).order_by("-id")`. -/
def recipe_get_queryset (u : Nat) (s : Store) : List Recipe :=
  List.insertionSort recipeDescId (s.recipes.filter (fun r => r.user = u))

/-- Method `TagViewSet.get_queryset` from `recipe/views.py`:
`self.queryset.filter(user=self.request.user).order_by("-name")`. -/
def tag_get_queryset (u : Nat) (s : Store) : List Tag :=
  List.insertionSort tagDescName (s.tags.filter (fun t => t.user = u))

/-- Modelled from the spec: the `IngredientViewSet` module is not in the
source tree (only its tests are); per the spec, the ingredient list is
owner-filtered and ordered by descending name, like tags. -/
def ingredient_get_queryset (u : Nat) (s : Store) : List Ingredient :=
  List.insertionSort ingredientDescName (s.ingredients.filter (fun i => i.user = u))

example : recipe_get_queryset 1
    { recipes := [⟨1, 1, "a", 0, 0, "", "", [], []⟩, ⟨2, 2, "b", 0, 0, "", "", [], []⟩,
                  ⟨3, 1, "c", 0, 0, "", "", [], []⟩],
      tags := [], ingredients := [],
      nextRecipeId := 4, nextTagId := 1, nextIngredientId := 1 }
    = [⟨3, 1, "c", 0, 0, "", "", [], []⟩, ⟨1, 1, "a", 0, 0, "", "", [], []⟩] := by decide

/-- A scalar JSON value of a request body field. -/
inductive Value where
  | str (v : String)
  | nat (v : Nat)
  | int (v : Int)
deriving DecidableEq, Repr

/-- Writing one validated scalar field into a recipe instance, as the model
serializer does with the fields declared in `Meta.fields`.  A value of the
wrong shape for the field leaves the instance unchanged. -/
def applyField (r : Recipe) (f : String) (v : Value) : Recipe :=
  if f = "title" then
    match v with
    | Value.str x => { r with title := x }
    | _ => r
  else if f = "time_minutes" then
    match v with
    | Value.nat x => { r with time_minutes := x }
    | _ => r
  else if f = "price" then
    match v with
    | Value.int x => { r with price := x }
    | _ => r
  else if f = "link" then
    match v with
    | Value.str x => { r with link := x }
    | _ => r
  else if f = "description" then
    match v with
    | Value.str x => { r with description := x }
    | _ => r
  else
    r

/-- Apply the scalar part of a payload to a recipe: only the writable
declared fields of the detail serializer are ever written (read-only `id`
and the undeclared `user` are skipped). -/
def updateRecipeFields (r : Recipe) (fs : List (String × Value)) : Recipe :=
  fs.foldl (fun acc fv =>
    if fv.1 ∈ writableDetailFields then applyField acc fv.1 fv.2 else acc) r

/-- A nested tag/ingredient item of a request payload: a JSON object whose
`name` key may be missing. -/
structure NestedItem where
  name : Option String
deriving DecidableEq, Repr

/-- Extract the names of a nested item list; `none` when some item is
missing its `name` (a validation failure). -/
def itemNames : List NestedItem → Option (List String)
  | [] => some []
  | it :: rest =>
    match it.name, itemNames rest with
    | some n, some ns => some (n :: ns)
    | _, _ => none

/-- A raw recipe write payload: scalar fields plus the optional nested
`tags` / `ingredients` lists (absent key ≠ empty list). -/
structure RawPayload where
  fields : List (String × Value)
  tags : Option (List NestedItem)
  ingredients : Option (List NestedItem)
deriving DecidableEq, Repr

/-- The serializer's validated data: scalar fields plus the resolved
name lists of the nested fields when the key was present. -/
structure ValidatedData where
  fields : List (String × Value)
  tags : Option (List String)
  ingredients : Option (List String)
deriving DecidableEq, Repr

/-- Modelled from the spec: validation of one optional nested list — every
item must carry a name, otherwise the whole write fails with a validation
error ("a write with a malformed nested item (missing name) fails the whole
operation with a validation error"). -/
def validateNested : Option (List NestedItem) → Except String (Option (List String))
  | none => Except.ok none
  | some items =>
    match itemNames items with
    | some ns => Except.ok (some ns)
    | none => Except.error "This field is required."

/-- Modelled from the spec: `is_valid` of the recipe serializer — both
nested lists must validate before any state change happens. -/
def validatePayload (p : RawPayload) : Except String ValidatedData :=
  match validateNested p.tags, validateNested p.ingredients with
  | Except.ok t, Except.ok i => Except.ok ⟨p.fields, t, i⟩
  | Except.error e, _ => Except.error e
  | _, Except.error e => Except.error e

/-- Modelled from the spec: the nested upsert resolver for one tag name —
"Look up an existing Tag with that exact name owned by the current
identity; if found, reuse it (no duplicate created, case-sensitive exact
match); if not found, create a new Tag owned by the current identity". -/
def getOrCreateTag (u : Nat) (n : String) (s : Store) : Nat × Store :=
  match s.tags.find? (fun t => t.user = u ∧ t.name = n) with
  | some t => (t.id, s)
  | none =>
    (s.nextTagId,
     { s with tags := s.tags ++ [⟨s.nextTagId, u, n⟩], nextTagId := s.nextTagId + 1 })

/-- Modelled from the spec: the nested upsert resolver for one ingredient
name, identical in shape to the tag resolver. -/
def getOrCreateIngredient (u : Nat) (n : String) (s : Store) : Nat × Store :=
  match s.ingredients.find? (fun t => t.user = u ∧ t.name = n) with
  | some t => (t.id, s)
  | none =>
    (s.nextIngredientId,
     { s with ingredients := s.ingredients ++ [⟨s.nextIngredientId, u, n⟩],
              nextIngredientId := s.nextIngredientId + 1 })

/-- Modelled from the spec: resolve a full list of tag names left to right,
threading the store ("After resolving the full list, set the recipe's
association set to exactly the resolved set"). -/
def resolveTagNames (u : Nat) (ns : List String) (s : Store) : List Nat × Store :=
  match ns with
  | [] => ([], s)
  | n :: rest =>
    let p := getOrCreateTag u n s
    let q := resolveTagNames u rest p.2
    (p.1 :: q.1, q.2)

/-- Modelled from the spec: resolve a full list of ingredient names. -/
def resolveIngredientNames (u : Nat) (ns : List String) (s : Store) : List Nat × Store :=
  match ns with
  | [] => ([], s)
  | n :: rest =>
    let p := getOrCreateIngredient u n s
    let q := resolveIngredientNames u rest p.2
    (p.1 :: q.1, q.2)

/-- Modelled from the spec: the recipe serializer's `update` on validated
data.  Scalar fields are written through the declared-field filter; a
present `tags`/`ingredients` key replaces the association set with the
resolved set, an absent key leaves it untouched. -/
def recipeUpdate (u : Nat) (r : Recipe) (vd : ValidatedData) (s : Store) :
    Recipe × Store :=
  let r1 := updateRecipeFields r vd.fields
  let p :=
    match vd.tags with
    | none => (r1, s)
    | some ns =>
      let q := resolveTagNames u ns s
      ({ r1 with tags := q.1 }, q.2)
  match vd.ingredients with
  | none => p
  | some ns =>
    let q := resolveIngredientNames u ns p.2
    ({ p.1 with ingredients := q.1 }, q.2)

/-- Modelled from the spec: the recipe serializer's `create` on validated
data; the view's `perform_create` supplies the owner
(`serializer.save(user=self.request.user)` in `recipe/views.py`). -/
def recipeCreate (u : Nat) (vd : ValidatedData) (s : Store) : Recipe × Store :=
  let r0 : Recipe :=
    { id := s.nextRecipeId, user := u, title := "", time_minutes := 0, price := 0,
      description := "", link := "", tags := [], ingredients := [] }
  let p := recipeUpdate u r0 vd s
  (p.1, { p.2 with recipes := p.2.recipes ++ [p.1], nextRecipeId := s.nextRecipeId + 1 })

/-- Write an updated recipe instance back over the row with the same id,
as the model's `save` does for an existing primary key. -/
def storeSetRecipe (r : Recipe) (s : Store) : Store :=
  { s with recipes := s.recipes.map (fun x => if x.id = r.id then r else x) }

/-- DRF's `get_object` for the recipe viewset: the pk lookup runs inside
`get_queryset`, so it only ever sees the requesting user's rows. -/
def recipe_get_object (u : Nat) (pk : Nat) (s : Store) : Option Recipe :=
  (recipe_get_queryset u s).find? (fun r => r.id = pk)

/-- DRF's `get_object` for the tag viewset, over its owner-filtered
queryset. -/
def tag_get_object (u : Nat) (pk : Nat) (s : Store) : Option Tag :=
  (tag_get_queryset u s).find? (fun t => t.id = pk)

/-- DRF's `get_object` for the ingredient viewset, over its owner-filtered
queryset. -/
def ingredient_get_object (u : Nat) (pk : Nat) (s : Store) : Option Ingredient :=
  (ingredient_get_queryset u s).find? (fun i => i.id = pk)

/-- Recipe list endpoint (`GET /recipe/`): `IsAuthenticated` rejects a
missing identity with 401 before the queryset is touched. -/
def recipeListEndpoint (auth : Option Nat) (s : Store) :
    Nat × List Recipe × Store :=
  match auth with
  | none => (401, [], s)
  | some u => (200, recipe_get_queryset u s, s)

/-- Recipe detail endpoint (`GET /recipe/{id}/`). -/
def recipeDetailEndpoint (auth : Option Nat) (pk : Nat) (s : Store) :
    Nat × Option Recipe × Store :=
  match auth with
  | none => (401, none, s)
  | some u =>
    match recipe_get_object u pk s with
    | none => (404, none, s)
    | some r => (200, some r, s)

/-- Recipe update endpoint (`PUT`/`PATCH /recipe/{id}/`): authentication,
then object lookup, then payload validation, then the serializer update —
a validation failure leaves the store untouched (all-or-nothing). -/
def recipeUpdateEndpoint (auth : Option Nat) (pk : Nat) (p : RawPayload)
    (s : Store) : Nat × Store :=
  match auth with
  | none => (401, s)
  | some u =>
    match recipe_get_object u pk s with
    | none => (404, s)
    | some r =>
      match validatePayload p with
      | Except.error _ => (400, s)
      | Except.ok vd =>
        let p := recipeUpdate u r vd s
        (200, storeSetRecipe p.1 p.2)

/-- Recipe create endpoint (`POST /recipe/`). -/
def recipeCreateEndpoint (auth : Option Nat) (p : RawPayload) (s : Store) :
    Nat × Store :=
  match auth with
  | none => (401, s)
  | some u =>
    match validatePayload p with
    | Except.error _ => (400, s)
    | Except.ok vd => (201, (recipeCreate u vd s).2)

/-- Recipe destroy endpoint (`DELETE /recipe/{id}/`). -/
def recipeDestroyEndpoint (auth : Option Nat) (pk : Nat) (s : Store) :
    Nat × Store :=
  match auth with
  | none => (401, s)
  | some u =>
    match recipe_get_object u pk s with
    | none => (404, s)
    | some r => (204, { s with recipes := s.recipes.filter (fun x => x.id ≠ r.id) })

/-- Tag list endpoint (`GET /tags/`). -/
def tagListEndpoint (auth : Option Nat) (s : Store) : Nat × List Tag × Store :=
  match auth with
  | none => (401, [], s)
  | some u => (200, tag_get_queryset u s, s)

/-- Tag update endpoint (`PATCH /tags/{id}/`): the tag serializer (modelled
from the spec, its module is not in the source tree) exposes the writable
`name` field only. -/
def tagUpdateEndpoint (auth : Option Nat) (pk : Nat) (newName : Option String)
    (s : Store) : Nat × Store :=
  match auth with
  | none => (401, s)
  | some u =>
    match tag_get_object u pk s with
    | none => (404, s)
    | some t =>
      let t' := match newName with
        | none => t
        | some n => { t with name := n }
      (200, { s with tags := s.tags.map (fun x => if x.id = t'.id then t' else x) })

/-- Tag destroy endpoint (`DELETE /tags/{id}/`). -/
def tagDestroyEndpoint (auth : Option Nat) (pk : Nat) (s : Store) : Nat × Store :=
  match auth with
  | none => (401, s)
  | some u =>
    match tag_get_object u pk s with
    | none => (404, s)
    | some t => (204, { s with tags := s.tags.filter (fun x => x.id ≠ t.id) })

/-- Ingredient list endpoint (`GET /ingredients/`), modelled from the spec
alongside the ingredient viewset. -/
def ingredientListEndpoint (auth : Option Nat) (s : Store) :
    Nat × List Ingredient × Store :=
  match auth with
  | none => (401, [], s)
  | some u => (200, ingredient_get_queryset u s, s)

/-- Ingredient update endpoint (`PATCH /ingredients/{id}/`), modelled from
the spec alongside the ingredient viewset. -/
def ingredientUpdateEndpoint (auth : Option Nat) (pk : Nat)
    (newName : Option String) (s : Store) : Nat × Store :=
  match auth with
  | none => (401, s)
  | some u =>
    match ingredient_get_object u pk s with
    | none => (404, s)
    | some t =>
      let t' := match newName with
        | none => t
        | some n => { t with name := n }
      (200, { s with ingredients := s.ingredients.map (fun x => if x.id = t'.id then t' else x) })

/-- Ingredient destroy endpoint (`DELETE /ingredients/{id}/`), modelled
from the spec alongside the ingredient viewset. -/
def ingredientDestroyEndpoint (auth : Option Nat) (pk : Nat) (s : Store) :
    Nat × Store :=
  match auth with
  | none => (401, s)
  | some u =>
    match ingredient_get_object u pk s with
    | none => (404, s)
    | some t => (204, { s with ingredients := s.ingredients.filter (fun x => x.id ≠ t.id) })

/-- An email address split at its final `@`: a local part and a domain
part. -/
structure Email where
  localPart : String
  domainPart : String
deriving DecidableEq, Repr

/-- Render an email back to its string form. -/
def emailString (e : Email) : String := e.localPart ++ "@" ++ e.domainPart

/-- Lowercase every character of a string (structural form of
`String.toLower`). -/
def lowerString (s : String) : String :=
  ⟨s.data.map Char.toLower⟩

/-- Modelled from the spec: `core/models.py` (the user manager) is not in
the source tree; per the spec, email is "unique, case-normalized on domain,
not on local part" — lowercase the domain, keep the local part. -/
def normalize_email (e : Email) : Email :=
  ⟨e.localPart, lowerString e.domainPart⟩

/-- A stored user record (password kept abstract; hashing is delegated). -/
structure StoredUser where
  email : Email
  password : String
deriving DecidableEq, Repr

/-- Modelled from the spec: `UserManager.create_user` normalizes the email
exactly once, at creation. -/
def create_user (e : Email) (pw : String) : StoredUser :=
  ⟨normalize_email e, pw⟩

/-- Outcome of one `self.check(databases=["default"])` call in
`wait_for_db.py`: success, or one of the two caught exception types
(`psycopg.OperationalError` / `django.db.utils.OperationalError`). -/
inductive CheckResult where
  | ok
  | psycopgErr
  | djangoErr
deriving DecidableEq, Repr

/-- Fuel-indexed run of the `while db_up is False` loop of
`Command.handle` in `wait_for_db.py`: `checks i` is the outcome of the
`i`-th check; on a caught error the loop sleeps one second and retries.
Returns `(checks made, one-second sleeps made)` on success, `none` when
the fuel ran out with every check so far failing. -/
def wait_for_db_loop (checks : Nat → CheckResult) : Nat → Nat → Option (Nat × Nat)
  | 0, _ => none
  | fuel + 1, i =>
    match checks i with
    | CheckResult.ok => some (i + 1, i)
    | _ => wait_for_db_loop checks fuel (i + 1)

/-- The `wait_for_db` command entry point, starting at the first check. -/
def wait_for_db (checks : Nat → CheckResult) (fuel : Nat) : Option (Nat × Nat) :=
  wait_for_db_loop checks fuel 0

/-- The number of tag rows with a given owner and exact name. -/
def countTagRows (u : Nat) (n : String) (l : List Tag) : Nat :=
  (l.filter (fun t => t.user = u ∧ t.name = n)).length

/-- The number of ingredient rows with a given owner and exact name. -/
def countIngredientRows (u : Nat) (n : String) (l : List Ingredient) : Nat :=
  (l.filter (fun t => t.user = u ∧ t.name = n)).length

/-- A small concrete store with one tag and one ingredient owned by user 0. -/
def sampleStore : Store :=
  { recipes := [], tags := [⟨1, 0, "indian"⟩], ingredients := [⟨1, 0, "Tortilla"⟩],
    nextRecipeId := 1, nextTagId := 2, nextIngredientId := 2 }

/-- A store holding one recipe, one tag and one ingredient, all owned by
user 0, with primary key 1 each. -/
def crossStore : Store :=
  { recipes := [⟨1, 0, "Sample recipe", 10, 535, "Sample description",
                 "https://sample.com/recipe", [], []⟩],
    tags := [⟨1, 0, "Vegan"⟩], ingredients := [⟨1, 0, "Kale"⟩],
    nextRecipeId := 2, nextTagId := 2, nextIngredientId := 2 }

/-- The sample recipe row stored in `crossStore`. -/
def sampleRecipe : Recipe :=
  ⟨1, 0, "Sample recipe", 10, 535, "Sample description",
   "https://sample.com/recipe", [], []⟩

/-- Check outcomes seen by a run that fails twice (once per caught error
kind) and then succeeds. -/
def sampleChecks : Nat → CheckResult := fun k =>
  if k = 0 then CheckResult.psycopgErr
  else if k = 1 then CheckResult.djangoErr
  else CheckResult.ok

/-- Check outcomes that never succeed. -/
def failingChecks : Nat → CheckResult := fun _ => CheckResult.psycopgErr

/-- Claim C6: the list representation omits `description`, the detail
representation includes it, and apart from `description` both expose the
same fields: id, title, time_minutes, price, link. -/
theorem C6_list_omits_description :
    get_serializer_class ViewAction.list = ["id", "title", "time_minutes", "price", "link"] ∧
    "description" ∉ get_serializer_class ViewAction.list ∧
    "description" ∈ get_serializer_class ViewAction.retrieve ∧
    get_serializer_class ViewAction.retrieve
      = get_serializer_class ViewAction.list ++ ["description"] ∧
    get_serializer_class ViewAction.update = get_serializer_class ViewAction.retrieve ∧
    get_serializer_class ViewAction.patch = get_serializer_class ViewAction.retrieve := by
  refine ⟨by decide, by decide, by decide, by decide, by decide, by decide⟩

/-- Claim C7: an unauthenticated request to any recipe, tag or ingredient
endpoint is answered 401 with the store untouched — the handler never
reaches the repository. -/
theorem C7_unauthenticated_rejected (s : Store) (pk : Nat) (p : RawPayload)
    (nm : Option String) :
    recipeListEndpoint none s = (401, [], s) ∧
    recipeDetailEndpoint none pk s = (401, none, s) ∧
    recipeUpdateEndpoint none pk p s = (401, s) ∧
    recipeCreateEndpoint none p s = (401, s) ∧
    recipeDestroyEndpoint none pk s = (401, s) ∧
    tagListEndpoint none s = (401, [], s) ∧
    tagUpdateEndpoint none pk nm s = (401, s) ∧
    tagDestroyEndpoint none pk s = (401, s) ∧
    ingredientListEndpoint none s = (401, [], s) ∧
    ingredientUpdateEndpoint none pk nm s = (401, s) ∧
    ingredientDestroyEndpoint none pk s = (401, s) := by
  refine ⟨rfl, rfl, rfl, rfl, rfl, rfl, rfl, rfl, rfl, rfl, rfl⟩

/-- Claim C9: the stored email of a created user is the input with the
domain part lowercased and the local part preserved, applied exactly once
at creation; checked on the three sample emails of the model tests. -/
theorem C9_email_normalized (e : Email) (pw : String) :
    (create_user e pw).email.localPart = e.localPart ∧
    (create_user e pw).email.domainPart = lowerString e.domainPart ∧
    (create_user e pw).email = normalize_email e ∧
    emailString (create_user ⟨"test1", "EXample.com"⟩ "sample123").email
      = "test1@example.com" ∧
    emailString (create_user ⟨"Test2", "Example.com"⟩ "sample123").email
      = "Test2@example.com" ∧
    emailString (create_user ⟨"TEST3", "EXAMPLE.COM"⟩ "sample123").email
      = "TEST3@example.com" := by
  refine ⟨rfl, rfl, rfl, by decide, by decide, by decide⟩

theorem countTagRows_append (u : Nat) (n : String) (l1 l2 : List Tag) :
    countTagRows u n (l1 ++ l2) = countTagRows u n l1 + countTagRows u n l2 := by
  simp [countTagRows, List.filter_append]

theorem countTagRows_pos_of_mem {u : Nat} {n : String} {l : List Tag} {t : Tag}
    (ht : t ∈ l) (hu : t.user = u) (hn : t.name = n) : 0 < countTagRows u n l := by
  have : t ∈ l.filter (fun t => decide (t.user = u ∧ t.name = n)) := by
    simp [List.mem_filter, ht, hu, hn]
  simpa [countTagRows] using List.length_pos.mpr (List.ne_nil_of_mem this)

theorem countTagRows_eq_zero {u : Nat} {n : String} {l : List Tag}
    (h : ∀ t ∈ l, ¬(t.user = u ∧ t.name = n)) : countTagRows u n l = 0 := by
  simp only [countTagRows, List.length_eq_zero]
  rw [List.filter_eq_nil_iff]
  intro t ht
  simpa using h t ht

theorem getOrCreateTag_count (u : Nat) (n : String) (s : Store) :
    countTagRows u n (getOrCreateTag u n s).2.tags = max (countTagRows u n s.tags) 1 := by
  cases h : s.tags.find? (fun t => t.user = u ∧ t.name = n) with
  | some t =>
    have ht := List.mem_of_find?_eq_some h
    have hp := List.find?_some h
    simp only [decide_eq_true_eq] at hp
    have hpos := countTagRows_pos_of_mem ht hp.1 hp.2
    simp only [getOrCreateTag, h]
    omega
  | none =>
    have hall : ∀ t ∈ s.tags, ¬(t.user = u ∧ t.name = n) := by
      intro t ht
      have := List.find?_eq_none.mp h t ht
      simpa using this
    have h0 := countTagRows_eq_zero hall
    simp only [getOrCreateTag, h, countTagRows_append, h0]
    simp [countTagRows]

theorem getOrCreateTag_exists_after (u : Nat) (n : String) (s : Store) :
    ∃ t ∈ (getOrCreateTag u n s).2.tags, t.user = u ∧ t.name = n := by
  cases h : s.tags.find? (fun t => t.user = u ∧ t.name = n) with
  | some t =>
    have ht := List.mem_of_find?_eq_some h
    have hp := List.find?_some h
    simp only [decide_eq_true_eq] at hp
    simp only [getOrCreateTag, h]
    exact ⟨t, ht, hp⟩
  | none =>
    simp only [getOrCreateTag, h]
    exact ⟨⟨s.nextTagId, u, n⟩, by simp, rfl, rfl⟩

theorem getOrCreateTag_reuse {u : Nat} {n : String} {s : Store}
    (h : ∃ t ∈ s.tags, t.user = u ∧ t.name = n) :
    (getOrCreateTag u n s).2 = s ∧
    ∃ t ∈ s.tags, t.user = u ∧ t.name = n ∧ (getOrCreateTag u n s).1 = t.id := by
  cases hf : s.tags.find? (fun t => decide (t.user = u) && decide (t.name = n)) with
  | some t =>
    have ht := List.mem_of_find?_eq_some hf
    have hp := List.find?_some hf
    simp only [Bool.and_eq_true, decide_eq_true_eq] at hp
    exact ⟨by simp [getOrCreateTag, hf], t, ht, hp.1, hp.2, by simp [getOrCreateTag, hf]⟩
  | none =>
    obtain ⟨t, ht, hu, hn⟩ := h
    have := List.find?_eq_none.mp hf t ht
    simp [hu, hn] at this

theorem getOrCreateTag_create {u : Nat} {n : String} {s : Store}
    (h : ∀ t ∈ s.tags, ¬(t.user = u ∧ t.name = n)) :
    (getOrCreateTag u n s).2.tags = s.tags ++ [⟨s.nextTagId, u, n⟩] := by
  cases hf : s.tags.find? (fun t => decide (t.user = u) && decide (t.name = n)) with
  | some t =>
    have ht := List.mem_of_find?_eq_some hf
    have hp := List.find?_some hf
    simp only [Bool.and_eq_true, decide_eq_true_eq] at hp
    exact absurd hp (h t ht)
  | none =>
    simp [getOrCreateTag, hf]

theorem countIngredientRows_append (u : Nat) (n : String) (l1 l2 : List Ingredient) :
    countIngredientRows u n (l1 ++ l2)
      = countIngredientRows u n l1 + countIngredientRows u n l2 := by
  simp [countIngredientRows, List.filter_append]

theorem countIngredientRows_pos_of_mem {u : Nat} {n : String} {l : List Ingredient}
    {t : Ingredient} (ht : t ∈ l) (hu : t.user = u) (hn : t.name = n) :
    0 < countIngredientRows u n l := by
  have : t ∈ l.filter (fun t => decide (t.user = u ∧ t.name = n)) := by
    simp [List.mem_filter, ht, hu, hn]
  simpa [countIngredientRows] using List.length_pos.mpr (List.ne_nil_of_mem this)

theorem countIngredientRows_eq_zero {u : Nat} {n : String} {l : List Ingredient}
    (h : ∀ t ∈ l, ¬(t.user = u ∧ t.name = n)) : countIngredientRows u n l = 0 := by
  simp only [countIngredientRows, List.length_eq_zero]
  rw [List.filter_eq_nil_iff]
  intro t ht
  simpa using h t ht

theorem getOrCreateIngredient_count (u : Nat) (n : String) (s : Store) :
    countIngredientRows u n (getOrCreateIngredient u n s).2.ingredients
      = max (countIngredientRows u n s.ingredients) 1 := by
  cases h : s.ingredients.find? (fun t => t.user = u ∧ t.name = n) with
  | some t =>
    have ht := List.mem_of_find?_eq_some h
    have hp := List.find?_some h
    simp only [decide_eq_true_eq] at hp
    have hpos := countIngredientRows_pos_of_mem ht hp.1 hp.2
    simp only [getOrCreateIngredient, h]
    omega
  | none =>
    have hall : ∀ t ∈ s.ingredients, ¬(t.user = u ∧ t.name = n) := by
      intro t ht
      have := List.find?_eq_none.mp h t ht
      simpa using this
    have h0 := countIngredientRows_eq_zero hall
    simp only [getOrCreateIngredient, h, countIngredientRows_append, h0]
    simp [countIngredientRows]

theorem getOrCreateIngredient_exists_after (u : Nat) (n : String) (s : Store) :
    ∃ t ∈ (getOrCreateIngredient u n s).2.ingredients, t.user = u ∧ t.name = n := by
  cases h : s.ingredients.find? (fun t => t.user = u ∧ t.name = n) with
  | some t =>
    have ht := List.mem_of_find?_eq_some h
    have hp := List.find?_some h
    simp only [decide_eq_true_eq] at hp
    simp only [getOrCreateIngredient, h]
    exact ⟨t, ht, hp⟩
  | none =>
    simp only [getOrCreateIngredient, h]
    exact ⟨⟨s.nextIngredientId, u, n⟩, by simp, rfl, rfl⟩

theorem getOrCreateIngredient_reuse {u : Nat} {n : String} {s : Store}
    (h : ∃ t ∈ s.ingredients, t.user = u ∧ t.name = n) :
    (getOrCreateIngredient u n s).2 = s ∧
    ∃ t ∈ s.ingredients, t.user = u ∧ t.name = n ∧ (getOrCreateIngredient u n s).1 = t.id := by
  cases hf : s.ingredients.find? (fun t => decide (t.user = u) && decide (t.name = n)) with
  | some t =>
    have ht := List.mem_of_find?_eq_some hf
    have hp := List.find?_some hf
    simp only [Bool.and_eq_true, decide_eq_true_eq] at hp
    exact ⟨by simp [getOrCreateIngredient, hf], t, ht, hp.1, hp.2,
           by simp [getOrCreateIngredient, hf]⟩
  | none =>
    obtain ⟨t, ht, hu, hn⟩ := h
    have := List.find?_eq_none.mp hf t ht
    simp [hu, hn] at this

theorem getOrCreateIngredient_create {u : Nat} {n : String} {s : Store}
    (h : ∀ t ∈ s.ingredients, ¬(t.user = u ∧ t.name = n)) :
    (getOrCreateIngredient u n s).2.ingredients
      = s.ingredients ++ [⟨s.nextIngredientId, u, n⟩] := by
  cases hf : s.ingredients.find? (fun t => decide (t.user = u) && decide (t.name = n)) with
  | some t =>
    have ht := List.mem_of_find?_eq_some hf
    have hp := List.find?_some hf
    simp only [Bool.and_eq_true, decide_eq_true_eq] at hp
    exact absurd hp (h t ht)
  | none =>
    simp [getOrCreateIngredient, hf]

/-- Claim C1: resolving a tag or ingredient name for an owner reuses the
existing row with that exact name and owner when one exists (store
unchanged, returned id is that row's id), creates a new row owned by that
owner only when none exists, and resolving the same name twice never
leaves more than one row with that owner and name. -/
theorem C1_upsert_reuses_or_creates (u : Nat) (n : String) (s : Store) :
    ((∃ t ∈ s.tags, t.user = u ∧ t.name = n) →
      (getOrCreateTag u n s).2 = s ∧
      ∃ t ∈ s.tags, t.user = u ∧ t.name = n ∧ (getOrCreateTag u n s).1 = t.id) ∧
    ((∀ t ∈ s.tags, ¬(t.user = u ∧ t.name = n)) →
      (getOrCreateTag u n s).2.tags = s.tags ++ [⟨s.nextTagId, u, n⟩]) ∧
    countTagRows u n ((getOrCreateTag u n (getOrCreateTag u n s).2).2).tags
      = max (countTagRows u n s.tags) 1 ∧
    ((∃ t ∈ s.ingredients, t.user = u ∧ t.name = n) →
      (getOrCreateIngredient u n s).2 = s ∧
      ∃ t ∈ s.ingredients, t.user = u ∧ t.name = n ∧
        (getOrCreateIngredient u n s).1 = t.id) ∧
    ((∀ t ∈ s.ingredients, ¬(t.user = u ∧ t.name = n)) →
      (getOrCreateIngredient u n s).2.ingredients
        = s.ingredients ++ [⟨s.nextIngredientId, u, n⟩]) ∧
    countIngredientRows u n
        ((getOrCreateIngredient u n (getOrCreateIngredient u n s).2).2).ingredients
      = max (countIngredientRows u n s.ingredients) 1 := by
  refine ⟨fun h => getOrCreateTag_reuse h, fun h => getOrCreateTag_create h, ?_,
          fun h => getOrCreateIngredient_reuse h, fun h => getOrCreateIngredient_create h, ?_⟩
  · have h2 := (getOrCreateTag_reuse (getOrCreateTag_exists_after u n s)).1
    rw [h2, getOrCreateTag_count]
  · have h2 := (getOrCreateIngredient_reuse (getOrCreateIngredient_exists_after u n s)).1
    rw [h2, getOrCreateIngredient_count]

theorem C1_upsert_witness :
    ((getOrCreateTag 0 "indian" sampleStore).2 = sampleStore ∧
      ∃ t ∈ sampleStore.tags, t.user = 0 ∧ t.name = "indian" ∧
        (getOrCreateTag 0 "indian" sampleStore).1 = t.id) ∧
    (getOrCreateTag 0 "dessert" sampleStore).2.tags
      = sampleStore.tags ++ [⟨sampleStore.nextTagId, 0, "dessert"⟩] ∧
    countTagRows 0 "dessert"
        ((getOrCreateTag 0 "dessert" (getOrCreateTag 0 "dessert" sampleStore).2).2).tags
      = max (countTagRows 0 "dessert" sampleStore.tags) 1 ∧
    ((getOrCreateIngredient 0 "Tortilla" sampleStore).2 = sampleStore ∧
      ∃ t ∈ sampleStore.ingredients, t.user = 0 ∧ t.name = "Tortilla" ∧
        (getOrCreateIngredient 0 "Tortilla" sampleStore).1 = t.id) ∧
    (getOrCreateIngredient 0 "Meat" sampleStore).2.ingredients
      = sampleStore.ingredients ++ [⟨sampleStore.nextIngredientId, 0, "Meat"⟩] ∧
    countIngredientRows 0 "Meat"
        ((getOrCreateIngredient 0 "Meat"
          (getOrCreateIngredient 0 "Meat" sampleStore).2).2).ingredients
      = max (countIngredientRows 0 "Meat" sampleStore.ingredients) 1 :=
  ⟨(C1_upsert_reuses_or_creates 0 "indian" sampleStore).1 (by decide),
   (C1_upsert_reuses_or_creates 0 "dessert" sampleStore).2.1 (by decide),
   (C1_upsert_reuses_or_creates 0 "dessert" sampleStore).2.2.1,
   (C1_upsert_reuses_or_creates 0 "Tortilla" sampleStore).2.2.2.1 (by decide),
   (C1_upsert_reuses_or_creates 0 "Meat" sampleStore).2.2.2.2.1 (by decide),
   (C1_upsert_reuses_or_creates 0 "Meat" sampleStore).2.2.2.2.2⟩

theorem applyField_frame (r : Recipe) (f : String) (v : Value) :
    (applyField r f v).id = r.id ∧ (applyField r f v).user = r.user ∧
    (applyField r f v).tags = r.tags ∧ (applyField r f v).ingredients = r.ingredients := by
  unfold applyField
  split_ifs <;> cases v <;> simp

theorem updateRecipeFields_cons (r : Recipe) (fv : String × Value)
    (rest : List (String × Value)) :
    updateRecipeFields r (fv :: rest)
      = updateRecipeFields
          (if fv.1 ∈ writableDetailFields then applyField r fv.1 fv.2 else r) rest := rfl

theorem updateRecipeFields_frame (fs : List (String × Value)) (r : Recipe) :
    (updateRecipeFields r fs).id = r.id ∧ (updateRecipeFields r fs).user = r.user ∧
    (updateRecipeFields r fs).tags = r.tags ∧
    (updateRecipeFields r fs).ingredients = r.ingredients := by
  induction fs generalizing r with
  | nil => exact ⟨rfl, rfl, rfl, rfl⟩
  | cons fv rest ih =>
    rw [updateRecipeFields_cons]
    by_cases h : fv.1 ∈ writableDetailFields
    · rw [if_pos h]
      have h1 := applyField_frame r fv.1 fv.2
      have h2 := ih (applyField r fv.1 fv.2)
      exact ⟨h2.1.trans h1.1, h2.2.1.trans h1.2.1, h2.2.2.1.trans h1.2.2.1,
             h2.2.2.2.trans h1.2.2.2⟩
    · rw [if_neg h]
      exact ih r

theorem getOrCreateTag_store_frame (u : Nat) (n : String) (s : Store) :
    (getOrCreateTag u n s).2.ingredients = s.ingredients ∧
    (getOrCreateTag u n s).2.recipes = s.recipes ∧
    ∃ l, (getOrCreateTag u n s).2.tags = s.tags ++ l := by
  unfold getOrCreateTag
  split
  · exact ⟨rfl, rfl, [], by simp⟩
  · exact ⟨rfl, rfl, [⟨s.nextTagId, u, n⟩], rfl⟩

theorem getOrCreateIngredient_store_frame (u : Nat) (n : String) (s : Store) :
    (getOrCreateIngredient u n s).2.tags = s.tags ∧
    (getOrCreateIngredient u n s).2.recipes = s.recipes ∧
    ∃ l, (getOrCreateIngredient u n s).2.ingredients = s.ingredients ++ l := by
  unfold getOrCreateIngredient
  split
  · exact ⟨rfl, rfl, [], by simp⟩
  · exact ⟨rfl, rfl, [⟨s.nextIngredientId, u, n⟩], rfl⟩

theorem resolveTagNames_store_frame (u : Nat) (ns : List String) (s : Store) :
    (resolveTagNames u ns s).2.ingredients = s.ingredients ∧
    (resolveTagNames u ns s).2.recipes = s.recipes ∧
    ∃ l, (resolveTagNames u ns s).2.tags = s.tags ++ l := by
  induction ns generalizing s with
  | nil => exact ⟨rfl, rfl, [], by simp [resolveTagNames]⟩
  | cons n rest ih =>
    have hg := getOrCreateTag_store_frame u n s
    have hr := ih (getOrCreateTag u n s).2
    obtain ⟨l1, hl1⟩ := hg.2.2
    obtain ⟨l2, hl2⟩ := hr.2.2
    refine ⟨?_, ?_, l1 ++ l2, ?_⟩
    · show (resolveTagNames u rest (getOrCreateTag u n s).2).2.ingredients = s.ingredients
      rw [hr.1, hg.1]
    · show (resolveTagNames u rest (getOrCreateTag u n s).2).2.recipes = s.recipes
      rw [hr.2.1, hg.2.1]
    · show (resolveTagNames u rest (getOrCreateTag u n s).2).2.tags = s.tags ++ (l1 ++ l2)
      rw [hl2, hl1, List.append_assoc]

theorem resolveIngredientNames_store_frame (u : Nat) (ns : List String) (s : Store) :
    (resolveIngredientNames u ns s).2.tags = s.tags ∧
    (resolveIngredientNames u ns s).2.recipes = s.recipes ∧
    ∃ l, (resolveIngredientNames u ns s).2.ingredients = s.ingredients ++ l := by
  induction ns generalizing s with
  | nil => exact ⟨rfl, rfl, [], by simp [resolveIngredientNames]⟩
  | cons n rest ih =>
    have hg := getOrCreateIngredient_store_frame u n s
    have hr := ih (getOrCreateIngredient u n s).2
    obtain ⟨l1, hl1⟩ := hg.2.2
    obtain ⟨l2, hl2⟩ := hr.2.2
    refine ⟨?_, ?_, l1 ++ l2, ?_⟩
    · show (resolveIngredientNames u rest (getOrCreateIngredient u n s).2).2.tags = s.tags
      rw [hr.1, hg.1]
    · show (resolveIngredientNames u rest (getOrCreateIngredient u n s).2).2.recipes = s.recipes
      rw [hr.2.1, hg.2.1]
    · show (resolveIngredientNames u rest (getOrCreateIngredient u n s).2).2.ingredients
        = s.ingredients ++ (l1 ++ l2)
      rw [hl2, hl1, List.append_assoc]

theorem recipeUpdate_eq_none (u : Nat) (r : Recipe) (fs : List (String × Value))
    (s : Store) :
    recipeUpdate u r ⟨fs, none, none⟩ s = (updateRecipeFields r fs, s) := rfl

theorem recipeUpdate_eq_some_none (u : Nat) (r : Recipe) (fs : List (String × Value))
    (ns : List String) (s : Store) :
    recipeUpdate u r ⟨fs, some ns, none⟩ s
      = ({ updateRecipeFields r fs with tags := (resolveTagNames u ns s).1 },
         (resolveTagNames u ns s).2) := rfl

theorem recipeUpdate_eq_none_some (u : Nat) (r : Recipe) (fs : List (String × Value))
    (ns : List String) (s : Store) :
    recipeUpdate u r ⟨fs, none, some ns⟩ s
      = ({ updateRecipeFields r fs with
            ingredients := (resolveIngredientNames u ns s).1 },
         (resolveIngredientNames u ns s).2) := rfl

/-- Claim C2: on a recipe update, a present `tags` (resp. `ingredients`)
key replaces the association set with exactly the resolved set of the
supplied name list without deleting any existing tag (resp. ingredient)
row; an empty list clears the associations; an absent key leaves both the
associations and the rows unchanged. -/
theorem C2_association_replace (u : Nat) (r : Recipe) (s : Store)
    (fs : List (String × Value)) :
    (∀ ns, (recipeUpdate u r ⟨fs, some ns, none⟩ s).1.tags = (resolveTagNames u ns s).1 ∧
      (∀ t ∈ s.tags, t ∈ (recipeUpdate u r ⟨fs, some ns, none⟩ s).2.tags) ∧
      (recipeUpdate u r ⟨fs, some ns, none⟩ s).1.ingredients = r.ingredients) ∧
    (recipeUpdate u r ⟨fs, some [], none⟩ s).1.tags = [] ∧
    (∀ ig, (recipeUpdate u r ⟨fs, none, ig⟩ s).1.tags = r.tags ∧
      (recipeUpdate u r ⟨fs, none, ig⟩ s).2.tags = s.tags) ∧
    (∀ ns, (recipeUpdate u r ⟨fs, none, some ns⟩ s).1.ingredients
        = (resolveIngredientNames u ns s).1 ∧
      (∀ t ∈ s.ingredients, t ∈ (recipeUpdate u r ⟨fs, none, some ns⟩ s).2.ingredients) ∧
      (recipeUpdate u r ⟨fs, none, some ns⟩ s).1.tags = r.tags) ∧
    (recipeUpdate u r ⟨fs, none, some []⟩ s).1.ingredients = [] ∧
    (∀ tg, (recipeUpdate u r ⟨fs, tg, none⟩ s).1.ingredients = r.ingredients ∧
      (recipeUpdate u r ⟨fs, tg, none⟩ s).2.ingredients = s.ingredients) := by
  refine ⟨?_, ?_, ?_, ?_, ?_, ?_⟩
  · intro ns
    rw [recipeUpdate_eq_some_none]
    refine ⟨rfl, ?_, (updateRecipeFields_frame fs r).2.2.2⟩
    intro t ht
    obtain ⟨l, hl⟩ := (resolveTagNames_store_frame u ns s).2.2
    show t ∈ (resolveTagNames u ns s).2.tags
    rw [hl]
    exact List.mem_append_left _ ht
  · rw [recipeUpdate_eq_some_none]
    simp [resolveTagNames]
  · intro ig
    cases ig with
    | none =>
      rw [recipeUpdate_eq_none]
      exact ⟨(updateRecipeFields_frame fs r).2.2.1, rfl⟩
    | some ns =>
      rw [recipeUpdate_eq_none_some]
      exact ⟨(updateRecipeFields_frame fs r).2.2.1,
             (resolveIngredientNames_store_frame u ns s).1⟩
  · intro ns
    rw [recipeUpdate_eq_none_some]
    refine ⟨rfl, ?_, (updateRecipeFields_frame fs r).2.2.1⟩
    intro t ht
    obtain ⟨l, hl⟩ := (resolveIngredientNames_store_frame u ns s).2.2
    show t ∈ (resolveIngredientNames u ns s).2.ingredients
    rw [hl]
    exact List.mem_append_left _ ht
  · rw [recipeUpdate_eq_none_some]
    simp [resolveIngredientNames]
  · intro tg
    cases tg with
    | none =>
      rw [recipeUpdate_eq_none]
      exact ⟨(updateRecipeFields_frame fs r).2.2.2, rfl⟩
    | some ns =>
      rw [recipeUpdate_eq_some_none]
      exact ⟨(updateRecipeFields_frame fs r).2.2.2,
             (resolveTagNames_store_frame u ns s).1⟩

theorem recipeUpdate_eq_some_some (u : Nat) (r : Recipe) (fs : List (String × Value))
    (ns ms : List String) (s : Store) :
    recipeUpdate u r ⟨fs, some ns, some ms⟩ s
      = ({ updateRecipeFields r fs with
            tags := (resolveTagNames u ns s).1
            ingredients := (resolveIngredientNames u ms (resolveTagNames u ns s).2).1 },
         (resolveIngredientNames u ms (resolveTagNames u ns s).2).2) := rfl

/-- Claim C8: whatever the payload of a recipe update contains — including
`id` or `user` entries among its scalar fields — the updated recipe keeps
its id and its owner. -/
theorem C8_update_preserves_id_and_user (u : Nat) (r : Recipe) (vd : ValidatedData)
    (s : Store) :
    (recipeUpdate u r vd s).1.id = r.id ∧ (recipeUpdate u r vd s).1.user = r.user := by
  obtain ⟨fs, tg, ig⟩ := vd
  cases tg <;> cases ig <;>
    exact ⟨(updateRecipeFields_frame fs r).1, (updateRecipeFields_frame fs r).2.1⟩

/-- Claim C3: each list endpoint returns exactly the requesting owner's
rows and no others; recipes come out sorted by descending id, tags and
ingredients by descending name. -/
theorem C3_list_owner_scoped_and_ordered (u : Nat) (s : Store) :
    (∀ r : Recipe, r ∈ recipe_get_queryset u s ↔ r ∈ s.recipes ∧ r.user = u) ∧
    List.Sorted recipeDescId (recipe_get_queryset u s) ∧
    (∀ t : Tag, t ∈ tag_get_queryset u s ↔ t ∈ s.tags ∧ t.user = u) ∧
    List.Sorted tagDescName (tag_get_queryset u s) ∧
    (∀ i : Ingredient, i ∈ ingredient_get_queryset u s ↔ i ∈ s.ingredients ∧ i.user = u) ∧
    List.Sorted ingredientDescName (ingredient_get_queryset u s) := by
  refine ⟨?_, List.sorted_insertionSort _ _, ?_, List.sorted_insertionSort _ _,
          ?_, List.sorted_insertionSort _ _⟩
  · intro r
    simp [recipe_get_queryset, List.mem_filter]
  · intro t
    simp [tag_get_queryset, List.mem_filter]
  · intro i
    simp [ingredient_get_queryset, List.mem_filter]

theorem recipe_get_object_other_user {a b pk : Nat} {r : Recipe} {s : Store}
    (_hr : r ∈ s.recipes) (_hid : r.id = pk) (hu : r.user = a) (hb : b ≠ a)
    (huniq : ∀ x ∈ s.recipes, x.id = pk → x = r) :
    recipe_get_object b pk s = none := by
  unfold recipe_get_object
  rw [List.find?_eq_none]
  intro x hx
  have hx' : x ∈ s.recipes.filter (fun r => r.user = b) := by
    simpa [recipe_get_queryset] using hx
  rw [List.mem_filter] at hx'
  have hxb : x.user = b := by simpa using hx'.2
  simp only [decide_eq_true_eq]
  intro hxid
  have := huniq x hx'.1 hxid
  rw [this] at hxb
  exact hb (hxb ▸ hu.symm).symm

theorem tag_get_object_other_user {a b pk : Nat} {t : Tag} {s : Store}
    (_ht : t ∈ s.tags) (_hid : t.id = pk) (hu : t.user = a) (hb : b ≠ a)
    (huniq : ∀ x ∈ s.tags, x.id = pk → x = t) :
    tag_get_object b pk s = none := by
  unfold tag_get_object
  rw [List.find?_eq_none]
  intro x hx
  have hx' : x ∈ s.tags.filter (fun t => t.user = b) := by
    simpa [tag_get_queryset] using hx
  rw [List.mem_filter] at hx'
  have hxb : x.user = b := by simpa using hx'.2
  simp only [decide_eq_true_eq]
  intro hxid
  have := huniq x hx'.1 hxid
  rw [this] at hxb
  exact hb (hxb ▸ hu.symm).symm

theorem ingredient_get_object_other_user {a b pk : Nat} {i : Ingredient} {s : Store}
    (_hi : i ∈ s.ingredients) (_hid : i.id = pk) (hu : i.user = a) (hb : b ≠ a)
    (huniq : ∀ x ∈ s.ingredients, x.id = pk → x = i) :
    ingredient_get_object b pk s = none := by
  unfold ingredient_get_object
  rw [List.find?_eq_none]
  intro x hx
  have hx' : x ∈ s.ingredients.filter (fun i => i.user = b) := by
    simpa [ingredient_get_queryset] using hx
  rw [List.mem_filter] at hx'
  have hxb : x.user = b := by simpa using hx'.2
  simp only [decide_eq_true_eq]
  intro hxid
  have := huniq x hx'.1 hxid
  rw [this] at hxb
  exact hb (hxb ▸ hu.symm).symm

/-- Claim C4: a detail, update or delete request by an authenticated user
`b` for an entity owned by a different user `a` answers 404 Not Found
(never 403) and leaves the store — hence the entity — unchanged, for
recipes, tags and ingredients alike. -/
theorem C4_cross_owner_requests_not_found (a b pk : Nat) (s : Store)
    (p : RawPayload) (nm : Option String) (hb : b ≠ a) :
    (∀ r ∈ s.recipes, r.id = pk → r.user = a →
      (∀ x ∈ s.recipes, x.id = pk → x = r) →
      recipeDetailEndpoint (some b) pk s = (404, none, s) ∧
      recipeUpdateEndpoint (some b) pk p s = (404, s) ∧
      recipeDestroyEndpoint (some b) pk s = (404, s)) ∧
    (∀ t ∈ s.tags, t.id = pk → t.user = a →
      (∀ x ∈ s.tags, x.id = pk → x = t) →
      tagUpdateEndpoint (some b) pk nm s = (404, s) ∧
      tagDestroyEndpoint (some b) pk s = (404, s)) ∧
    (∀ i ∈ s.ingredients, i.id = pk → i.user = a →
      (∀ x ∈ s.ingredients, x.id = pk → x = i) →
      ingredientUpdateEndpoint (some b) pk nm s = (404, s) ∧
      ingredientDestroyEndpoint (some b) pk s = (404, s)) := by
  refine ⟨?_, ?_, ?_⟩
  · intro r hr hid hu huniq
    have hn := recipe_get_object_other_user hr hid hu hb huniq
    exact ⟨by simp [recipeDetailEndpoint, hn],
           by simp [recipeUpdateEndpoint, hn],
           by simp [recipeDestroyEndpoint, hn]⟩
  · intro t ht hid hu huniq
    have hn := tag_get_object_other_user ht hid hu hb huniq
    exact ⟨by simp [tagUpdateEndpoint, hn], by simp [tagDestroyEndpoint, hn]⟩
  · intro i hi hid hu huniq
    have hn := ingredient_get_object_other_user hi hid hu hb huniq
    exact ⟨by simp [ingredientUpdateEndpoint, hn],
           by simp [ingredientDestroyEndpoint, hn]⟩

theorem C4_cross_owner_requests_not_found_witness :
    recipeDetailEndpoint (some 1) 1 crossStore = (404, none, crossStore) ∧
    recipeUpdateEndpoint (some 1) 1 ⟨[], none, none⟩ crossStore = (404, crossStore) ∧
    recipeDestroyEndpoint (some 1) 1 crossStore = (404, crossStore) ∧
    tagUpdateEndpoint (some 1) 1 (some "Fruity") crossStore = (404, crossStore) ∧
    tagDestroyEndpoint (some 1) 1 crossStore = (404, crossStore) ∧
    ingredientUpdateEndpoint (some 1) 1 (some "Salt") crossStore = (404, crossStore) ∧
    ingredientDestroyEndpoint (some 1) 1 crossStore = (404, crossStore) := by
  have h := C4_cross_owner_requests_not_found 0 1 1 crossStore ⟨[], none, none⟩
    (some "Fruity") (by decide)
  have hI := C4_cross_owner_requests_not_found 0 1 1 crossStore ⟨[], none, none⟩
    (some "Salt") (by decide)
  have h1 := h.1 ⟨1, 0, "Sample recipe", 10, 535, "Sample description",
                  "https://sample.com/recipe", [], []⟩
    (by decide) (by decide) (by decide) (by decide)
  have h2 := h.2.1 ⟨1, 0, "Vegan"⟩ (by decide) (by decide) (by decide) (by decide)
  have h3 := hI.2.2 ⟨1, 0, "Kale"⟩ (by decide) (by decide) (by decide) (by decide)
  exact ⟨h1.1, h1.2.1, h1.2.2, h2.1, h2.2, h3.1, h3.2⟩

theorem itemNames_eq_none {items : List NestedItem} {it : NestedItem}
    (hmem : it ∈ items) (hname : it.name = none) : itemNames items = none := by
  induction items with
  | nil => cases hmem
  | cons x rest ih =>
    rcases List.mem_cons.mp hmem with h | h
    · subst h
      simp [itemNames, hname]
    · have hrest := ih h
      cases hx : x.name <;> simp [itemNames, hx, hrest]

theorem validatePayload_tags_error {p : RawPayload} {items : List NestedItem}
    {it : NestedItem} (hp : p.tags = some items) (hmem : it ∈ items)
    (hname : it.name = none) : ∃ e, validatePayload p = Except.error e := by
  have h1 : validateNested p.tags = Except.error "This field is required." := by
    rw [hp]
    simp [validateNested, itemNames_eq_none hmem hname]
  unfold validatePayload
  rw [h1]
  cases h2 : validateNested p.ingredients with
  | ok t => exact ⟨"This field is required.", rfl⟩
  | error e => exact ⟨"This field is required.", rfl⟩

theorem validatePayload_ingredients_error {p : RawPayload} {items : List NestedItem}
    {it : NestedItem} (hp : p.ingredients = some items) (hmem : it ∈ items)
    (hname : it.name = none) : ∃ e, validatePayload p = Except.error e := by
  have h1 : validateNested p.ingredients = Except.error "This field is required." := by
    rw [hp]
    simp [validateNested, itemNames_eq_none hmem hname]
  unfold validatePayload
  rw [h1]
  cases h2 : validateNested p.tags with
  | ok t => exact ⟨"This field is required.", rfl⟩
  | error e => exact ⟨e, rfl⟩

/-- Claim C5: a recipe write whose payload holds a nested tag or ingredient
item without a name fails as a whole with a 400 validation error and the
store is exactly what it was — no row of any kind is created and the
recipe's associations stay untouched (all-or-nothing). -/
theorem C5_malformed_nested_item_rejected (u pk : Nat) (s : Store) (p : RawPayload)
    (items : List NestedItem) (it : NestedItem) (hmem : it ∈ items)
    (hname : it.name = none)
    (hside : p.tags = some items ∨ p.ingredients = some items) :
    recipeCreateEndpoint (some u) p s = (400, s) ∧
    (∀ r, recipe_get_object u pk s = some r →
      recipeUpdateEndpoint (some u) pk p s = (400, s)) := by
  have he : ∃ e, validatePayload p = Except.error e := by
    cases hside with
    | inl h => exact validatePayload_tags_error h hmem hname
    | inr h => exact validatePayload_ingredients_error h hmem hname
  obtain ⟨e, he⟩ := he
  constructor
  · simp [recipeCreateEndpoint, he]
  · intro r hr
    simp [recipeUpdateEndpoint, hr, he]

theorem C5_malformed_nested_item_rejected_witness :
    recipeCreateEndpoint (some 0) ⟨[], some [⟨none⟩], none⟩ crossStore
      = (400, crossStore) ∧
    recipeUpdateEndpoint (some 0) 1 ⟨[], some [⟨none⟩], none⟩ crossStore
      = (400, crossStore) ∧
    recipeCreateEndpoint (some 0) ⟨[], none, some [⟨none⟩]⟩ crossStore
      = (400, crossStore) ∧
    recipeUpdateEndpoint (some 0) 1 ⟨[], none, some [⟨none⟩]⟩ crossStore
      = (400, crossStore) := by
  have h1 := C5_malformed_nested_item_rejected 0 1 crossStore ⟨[], some [⟨none⟩], none⟩
    [⟨none⟩] ⟨none⟩ (by decide) rfl (Or.inl rfl)
  have h2 := C5_malformed_nested_item_rejected 0 1 crossStore ⟨[], none, some [⟨none⟩]⟩
    [⟨none⟩] ⟨none⟩ (by decide) rfl (Or.inr rfl)
  refine ⟨h1.1, h1.2 ⟨1, 0, "Sample recipe", 10, 535, "Sample description",
    "https://sample.com/recipe", [], []⟩ (by decide), h2.1,
    h2.2 ⟨1, 0, "Sample recipe", 10, 535, "Sample description",
    "https://sample.com/recipe", [], []⟩ (by decide)⟩

theorem wait_for_db_loop_success (checks : Nat → CheckResult) :
    ∀ (m fuel i : Nat), (∀ k, i ≤ k → k < i + m → checks k ≠ CheckResult.ok) →
      checks (i + m) = CheckResult.ok → m < fuel →
      wait_for_db_loop checks fuel i = some (i + m + 1, i + m) := by
  intro m
  induction m with
  | zero =>
    intro fuel i _hfail hok hfuel
    cases fuel with
    | zero => exact absurd hfuel (lt_irrefl 0)
    | succ f =>
      have hok' : checks i = CheckResult.ok := hok
      simp [wait_for_db_loop, hok']
  | succ m ih =>
    intro fuel i hfail hok hfuel
    cases fuel with
    | zero => exact absurd hfuel (Nat.not_lt_zero _)
    | succ f =>
      have hi : checks i ≠ CheckResult.ok := hfail i (le_refl i) (by omega)
      have hnext := ih f (i + 1) (fun k hk1 hk2 => hfail k (by omega) (by omega))
        (by rw [show i + 1 + m = i + (m + 1) from by omega]; exact hok) (by omega)
      have heq : i + (m + 1) = i + 1 + m := by omega
      cases hc : checks i with
      | ok => exact absurd hc hi
      | psycopgErr =>
        simp only [wait_for_db_loop, hc]
        rw [heq]
        exact hnext
      | djangoErr =>
        simp only [wait_for_db_loop, hc]
        rw [heq]
        exact hnext

theorem wait_for_db_loop_none (checks : Nat → CheckResult) :
    ∀ (fuel i : Nat), (∀ k, i ≤ k → k < i + fuel → checks k ≠ CheckResult.ok) →
      wait_for_db_loop checks fuel i = none := by
  intro fuel
  induction fuel with
  | zero => intro i _; rfl
  | succ f ih =>
    intro i hfail
    have hi : checks i ≠ CheckResult.ok := hfail i (le_refl i) (by omega)
    have hnext := ih (i + 1) (fun k hk1 hk2 => hfail k (by omega) (by omega))
    cases hc : checks i with
    | ok => exact absurd hc hi
    | psycopgErr => simp only [wait_for_db_loop, hc]; exact hnext
    | djangoErr => simp only [wait_for_db_loop, hc]; exact hnext

/-- Claim C10: the startup wait loop catches both caught error kinds and
retries until a check succeeds: with n consecutive failed checks followed
by a success it makes exactly n+1 checks and n one-second sleeps, and
while every check keeps failing it never terminates (for any fuel bound
the run is still unfinished). -/
theorem C10_wait_for_db_retries (checks : Nat → CheckResult) (n fuel : Nat) :
    ((∀ k, k < n → checks k ≠ CheckResult.ok) → checks n = CheckResult.ok →
      n < fuel → wait_for_db checks fuel = some (n + 1, n)) ∧
    ((∀ k, k < fuel → checks k ≠ CheckResult.ok) → wait_for_db checks fuel = none) := by
  constructor
  · intro hfail hok hfuel
    have := wait_for_db_loop_success checks n fuel 0
      (fun k hk1 hk2 => hfail k (by omega)) (by simpa using hok) hfuel
    simpa [wait_for_db] using this
  · intro hfail
    exact wait_for_db_loop_none checks fuel 0 (fun k hk1 hk2 => hfail k (by omega))

theorem C10_wait_for_db_retries_witness :
    wait_for_db sampleChecks 10 = some (3, 2) ∧
    wait_for_db failingChecks 4 = none :=
  ⟨(C10_wait_for_db_retries sampleChecks 2 10).1 (by decide) (by decide) (by decide),
   (C10_wait_for_db_retries failingChecks 0 4).2 (by decide)⟩

theorem C2_association_replace_witness :
    (recipeUpdate 0 sampleRecipe ⟨[], some ["lunch"], none⟩ crossStore).1.tags
      = (resolveTagNames 0 ["lunch"] crossStore).1 ∧
    (⟨1, 0, "Vegan"⟩ : Tag)
      ∈ (recipeUpdate 0 sampleRecipe ⟨[], some ["lunch"], none⟩ crossStore).2.tags ∧
    (recipeUpdate 0 sampleRecipe ⟨[], some [], none⟩ crossStore).1.tags = [] ∧
    (recipeUpdate 0 sampleRecipe ⟨[], none, none⟩ crossStore).1.tags
      = sampleRecipe.tags ∧
    (⟨1, 0, "Kale"⟩ : Ingredient)
      ∈ (recipeUpdate 0 sampleRecipe ⟨[], none, some ["Salt"]⟩ crossStore).2.ingredients :=
  ⟨((C2_association_replace 0 sampleRecipe crossStore []).1 ["lunch"]).1,
   ((C2_association_replace 0 sampleRecipe crossStore []).1 ["lunch"]).2.1
     ⟨1, 0, "Vegan"⟩ (by decide),
   (C2_association_replace 0 sampleRecipe crossStore []).2.1,
   ((C2_association_replace 0 sampleRecipe crossStore []).2.2.1 none).1,
   ((C2_association_replace 0 sampleRecipe crossStore []).2.2.2.1 ["Salt"]).2.1
     ⟨1, 0, "Kale"⟩ (by decide)⟩
